import Mathlib

/-!
Shallow embedding of `src/sGUI_oiiotool.py` (Simple GUI for oiiotool).

The file models the file-classification-and-conversion orchestrator of the
program: `convert_to_tx`, `check_tx_file`, `convert_tx_to_tif`,
`DragDropWidget.process_tx_file` and `DragDropWidget.process_dropped_files`.
The external world (filesystem existence checks, the overwrite-confirmation
dialog, and subprocess execution) is modelled as an explicit environment;
subprocess launch or execution failures are modelled as `Except.error`
carrying the exception text.  Observable boundary interactions (tool
invocations, confirmation-dialog calls) are collected as an event trace.
-/

namespace OiioGui

/-- External environment of the program: `os.path.exists`, the result of the
`confirm_overwrite` dialog for a given path, the directory returned by
`get_script_directory`, and subprocess execution: `run cmd` either returns
the captured `(stdout, stderr)` pair or throws (modelled as `Except.error`
with the exception text `str(e)`). -/
structure Env where
  scriptDir : String
  pathExists : String → Bool
  confirmOverwrite : String → Bool
  run : List String → Except String (String × String)

/-- Observable boundary events: a subprocess invocation with its full command
line, or a call of the overwrite-confirmation dialog on a destination path. -/
inductive Event where
  | toolRun (cmd : List String)
  | confirmCall (path : String)
deriving DecidableEq

/-- Models `os.path.join(dir, name)`; the concrete separator character is
immaterial to every property proved below. -/
def osJoin (dir name : String) : String := dir ++ "/" ++ name

/-- Index of the last occurrence of `c` (as in Python `str.rfind`): scans the
list keeping the best index seen, `-1` when absent. -/
def rfindAux (c : Char) : List Char → Int → Int → Int
  | [], _, best => best
  | x :: xs, i, best => rfindAux c xs (i + 1) (if x = c then i else best)

/-- Python `p.rfind(c)` on the character list of `p`. -/
def pyRfind (l : List Char) (c : Char) : Int := rfindAux c l 0 (-1)

/-- True when some position strictly between `lo` and `hi` holds a character
other than `'.'` — the loop of CPython `genericpath._splitext` that skips
the leading dots of the final path component. -/
def hasNonDot (l : List Char) (lo hi : Int) : Bool :=
  (List.range l.length).any fun i =>
    decide (lo < (i : Int)) && decide ((i : Int) < hi) && (l.getD i '.' != '.')

/-- Models `os.path.splitext` (CPython `genericpath._splitext` with
`sep = '\\'`, `altsep = '/'`, `extsep = '.'`): split at the last dot after
the last separator, unless every character between them is a dot. -/
def splitext (p : String) : String × String :=
  let l := p.data
  let sepIndex := max (pyRfind l '\\') (pyRfind l '/')
  let dotIndex := pyRfind l '.'
  if decide (sepIndex < dotIndex) && hasNonDot l sepIndex dotIndex then
    (String.mk (l.take dotIndex.toNat), String.mk (l.drop dotIndex.toNat))
  else
    (p, "")

/-- Python `file_path.endswith(pat)`: exact, case-sensitive suffix match. -/
def pyEndsWith (s pat : String) : Bool := pat.data.isSuffixOf s.data

/-- Shared shape of the three tool wrappers (their `try`/`except` bodies):
run the command; on success return the captured streams, on an exception
return `("", str(e))` as the source functions do.  The command issued to the
environment is recorded as a `toolRun` event. -/
def run_captured (env : Env) (command : List String) : (String × String) × List Event :=
  match env.run command with
  | Except.ok (stdout, stderr) => ((stdout, stderr), [Event.toolRun command])
  | Except.error e => (("", e), [Event.toolRun command])

/-- Command line built by `convert_to_tx` (source lines 102–105):
`[oiiotool, input, "-otex", output]` plus `"--runstats"` when requested. -/
def convert_to_tx_command (env : Env) (input_file output_file : String)
    (add_runstats : Bool) : List String :=
  [osJoin env.scriptDir "oiiotool.exe", input_file, "-otex", output_file] ++
    (if add_runstats then ["--runstats"] else [])

/-- Model of `convert_to_tx` (source lines 87–118). -/
def convert_to_tx (env : Env) (input_file output_file : String)
    (add_runstats : Bool) : (String × String) × List Event :=
  run_captured env (convert_to_tx_command env input_file output_file add_runstats)

/-- Command line built by `check_tx_file` (source lines 132–133):
`[iinfo, "-v", tx_file]`. -/
def check_tx_file_command (env : Env) (tx_file : String) : List String :=
  [osJoin env.scriptDir "iinfo.exe", "-v", tx_file]

/-- Model of `check_tx_file` (source lines 121–146). -/
def check_tx_file (env : Env) (tx_file : String) : (String × String) × List Event :=
  run_captured env (check_tx_file_command env tx_file)

/-- Command line built by `convert_tx_to_tif` (source lines 161–162):
`[oiiotool, tx_file, "-o", output_tif]`. -/
def convert_tx_to_tif_command (env : Env) (tx_file output_tif : String) : List String :=
  [osJoin env.scriptDir "oiiotool.exe", tx_file, "-o", output_tif]

/-- Model of `convert_tx_to_tif` (source lines 149–175). -/
def convert_tx_to_tif (env : Env) (tx_file output_tif : String) :
    (String × String) × List Event :=
  run_captured env (convert_tx_to_tif_command env tx_file output_tif)

/-- The overwrite-guard pattern of `process_tx_file` (source lines 376–379 and
383–386): when the destination exists, ask `confirm_overwrite` and return its
answer (recording the dialog call); otherwise proceed without asking. -/
def should_proceed (env : Env) (output_file_path : String) : Bool × List Event :=
  if env.pathExists output_file_path then
    (env.confirmOverwrite output_file_path, [Event.confirmCall output_file_path])
  else
    (true, [])

/-- The three actions the `if`/`elif` chain of `process_tx_file` can select
for a file.  `checkbox1` is "show stats" (`includeRuntimeStats`), `checkbox2`
is "convert tx to tif" (`convertTextureToRaster`). -/
inductive Action where
  | inspectTexture
  | convertTextureToRaster
  | convertToTexture (addStats : Bool)
deriving DecidableEq

/-- The classifier implicit in the guards of `process_tx_file`
(source lines 372, 374, 381). -/
def classify (checkbox1 checkbox2 : Bool) (path : String) : Action :=
  if pyEndsWith path ".tx" && !checkbox2 then Action.inspectTexture
  else if pyEndsWith path ".tx" && checkbox2 then Action.convertTextureToRaster
  else Action.convertToTexture checkbox1

/-- Destination computed by `process_tx_file` for each action
(source lines 375 and 382); inspection produces no destination. -/
def resolveDestination (path : String) (a : Action) : Option String :=
  match a with
  | Action.inspectTexture => none
  | Action.convertTextureToRaster => some ((splitext path).1 ++ ".tif")
  | Action.convertToTexture _ => some ((splitext path).1 ++ ".tx")

/-- Model of `DragDropWidget.process_tx_file` (source lines 359–391). -/
def process_tx_file (env : Env) (checkbox1 checkbox2 : Bool) (file_path : String) :
    (String × String) × List Event :=
  if !env.pathExists file_path then
    (("", "File not found: " ++ file_path), [])
  else if pyEndsWith file_path ".tx" && !checkbox2 then
    check_tx_file env file_path
  else if pyEndsWith file_path ".tx" && checkbox2 then
    let output_file_path := (splitext file_path).1 ++ ".tif"
    let pr := should_proceed env output_file_path
    if pr.1 then
      let r := convert_tx_to_tif env file_path output_file_path
      (r.1, pr.2 ++ r.2)
    else
      (("", ""), pr.2)
  else
    let output_file_path := (splitext file_path).1 ++ ".tx"
    let pr := should_proceed env output_file_path
    if pr.1 then
      let r := convert_to_tx env file_path output_file_path checkbox1
      (r.1, pr.2 ++ r.2)
    else
      (("", ""), pr.2)

/-- Mutable state of one run of `process_dropped_files`: the accumulator
lists, the `files_processed` counter, the progress-bar value (an integer
percentage, `setValue` argument), and the event trace. -/
structure BatchState where
  processed_files : List String
  error_messages : List String
  console_output : List String
  files_processed : Nat
  progress : Nat
  events : List Event
deriving DecidableEq

/-- State at the start of a drop event (source lines 400–404). -/
def initState : BatchState :=
  { processed_files := [], error_messages := [], console_output := [],
    files_processed := 0, progress := 0, events := [] }

/-- Progress-bar value `int((files_processed / total_files) * 100)` (source
line 420), idealised to exact arithmetic: truncation of a non-negative real
is the floor, i.e. natural division. -/
def progressValue (files_processed total_files : Nat) : Nat :=
  (files_processed * 100) / total_files

/-- Per-file processing result as seen by the `try`/`except` of
`process_dropped_files`: either the `(stdout, stderr)` pair returned by
`process_tx_file`, or an exception escaping it, plus the events produced. -/
def PerFile : Type := String → Except String (String × String) × List Event

/-- Body of the loop of `process_dropped_files` (source lines 406–423) for
one file: record stderr/stdout when non-empty, append the file to
`processed_files` on normal return, append `str(e)` to the errors when an
exception escaped, bump the counter, recompute progress, and append the
completion line. -/
def processStep (pf : PerFile) (total_files : Nat) (st : BatchState)
    (file_path : String) : BatchState :=
  let st1 :=
    match pf file_path with
    | (Except.ok (stdout, stderr), evs) =>
      { st with
        error_messages := st.error_messages ++ (if stderr = "" then [] else [stderr]),
        console_output := st.console_output ++ (if stdout = "" then [] else [stdout]),
        processed_files := st.processed_files ++ [file_path],
        events := st.events ++ evs }
    | (Except.error e, evs) =>
      { st with
        error_messages := st.error_messages ++ [e],
        events := st.events ++ evs }
  { st1 with
    files_processed := st1.files_processed + 1,
    progress := progressValue (st1.files_processed + 1) total_files,
    console_output := st1.console_output ++
      ["File " ++ file_path ++ " has been processed."] }

/-- Model of `DragDropWidget.process_dropped_files` (source lines 393–427):
fold the loop body over the dropped paths, then `update_status_bar` resets
the progress bar to `0` (source line 476). -/
def process_dropped_files (pf : PerFile) (file_urls : List String) : BatchState :=
  let final := file_urls.foldl (processStep pf file_urls.length) initState
  { final with progress := 0 }

/-- The per-file function induced by the source as written: `process_tx_file`
itself raises no exception (its subprocess calls are wrapped), so every file
reaches the `try` block's normal exit. -/
def perFileOk (env : Env) (checkbox1 checkbox2 : Bool) : PerFile :=
  fun p =>
    (Except.ok (process_tx_file env checkbox1 checkbox2 p).1,
     (process_tx_file env checkbox1 checkbox2 p).2)

/-- Confirmation-dialog calls contained in an event trace. -/
def confirmCalls (evs : List Event) : List String :=
  evs.filterMap fun e =>
    match e with
    | Event.confirmCall p => some p
    | Event.toolRun _ => none

/-- Tool invocations contained in an event trace. -/
def toolRunsOf (evs : List Event) : List (List String) :=
  evs.filterMap fun e =>
    match e with
    | Event.toolRun c => some c
    | Event.confirmCall _ => none

/-- Paths appended to `processed_files` by one file. -/
def outcomeProcessed (p : String) (r : Except String (String × String)) : List String :=
  match r with
  | Except.ok _ => [p]
  | Except.error _ => []

/-- Strings appended to `error_messages` by one file. -/
def outcomeErrors (r : Except String (String × String)) : List String :=
  match r with
  | Except.ok (_, stderr) => if stderr = "" then [] else [stderr]
  | Except.error e => [e]

/-- Strings appended to `console_output` by one file: its stdout when
non-empty, then the fixed-format completion line. -/
def outcomeConsole (p : String) (r : Except String (String × String)) : List String :=
  (match r with
   | Except.ok (stdout, _) => if stdout = "" then [] else [stdout]
   | Except.error _ => []) ++
  ["File " ++ p ++ " has been processed."]

/-- Processed-paths list accumulated over a whole batch. -/
def batchProcessed (pf : PerFile) (l : List String) : List String :=
  (l.map fun p => outcomeProcessed p (pf p).1).flatten

/-- Error-message list accumulated over a whole batch. -/
def batchErrors (pf : PerFile) (l : List String) : List String :=
  (l.map fun p => outcomeErrors (pf p).1).flatten

/-- Console-output list accumulated over a whole batch. -/
def batchConsole (pf : PerFile) (l : List String) : List String :=
  (l.map fun p => outcomeConsole p (pf p).1).flatten

/-- Event trace accumulated over a whole batch. -/
def batchEvents (pf : PerFile) (l : List String) : List Event :=
  (l.map fun p => (pf p).2).flatten

/-! ### Structural lemmas -/

theorem splitext_append (p : String) : (splitext p).1 ++ (splitext p).2 = p := by
  rw [splitext]
  split
  · show String.mk _ ++ String.mk _ = p
    have h : String.mk (p.data.take (pyRfind p.data '.').toNat) ++
        String.mk (p.data.drop (pyRfind p.data '.').toNat) =
        String.mk (p.data.take (pyRfind p.data '.').toNat ++
          p.data.drop (pyRfind p.data '.').toNat) := rfl
    rw [h, List.take_append_drop]
  · show p ++ "" = p
    exact String.append_empty p

theorem notFound_ne_empty (p : String) : "File not found: " ++ p ≠ "" := by
  intro h
  have hd := congrArg String.data h
  rw [String.data_append] at hd
  simp at hd

theorem process_tx_file_missing (env : Env) (c1 c2 : Bool) (p : String)
    (h : env.pathExists p = false) :
    process_tx_file env c1 c2 p = (("", "File not found: " ++ p), []) := by
  simp [process_tx_file, h]

theorem processStep_ok (pf : PerFile) (N : Nat) (st : BatchState) (p o e : String)
    (evs : List Event) (h : pf p = (Except.ok (o, e), evs)) :
    processStep pf N st p =
      { processed_files := st.processed_files ++ [p],
        error_messages := st.error_messages ++ (if e = "" then [] else [e]),
        console_output := (st.console_output ++ (if o = "" then [] else [o])) ++
          ["File " ++ p ++ " has been processed."],
        files_processed := st.files_processed + 1,
        progress := progressValue (st.files_processed + 1) N,
        events := st.events ++ evs } := by
  simp only [processStep, h]

theorem processStep_err (pf : PerFile) (N : Nat) (st : BatchState) (p e : String)
    (evs : List Event) (h : pf p = (Except.error e, evs)) :
    processStep pf N st p =
      { processed_files := st.processed_files,
        error_messages := st.error_messages ++ [e],
        console_output := st.console_output ++ ["File " ++ p ++ " has been processed."],
        files_processed := st.files_processed + 1,
        progress := progressValue (st.files_processed + 1) N,
        events := st.events ++ evs } := by
  simp only [processStep, h]

theorem foldl_processStep (pf : PerFile) (N : Nat) (l : List String) (st : BatchState) :
    l.foldl (processStep pf N) st =
      { processed_files := st.processed_files ++ batchProcessed pf l,
        error_messages := st.error_messages ++ batchErrors pf l,
        console_output := st.console_output ++ batchConsole pf l,
        files_processed := st.files_processed + l.length,
        progress := if l.isEmpty then st.progress
          else progressValue (st.files_processed + l.length) N,
        events := st.events ++ batchEvents pf l } := by
  induction l generalizing st with
  | nil =>
    simp [batchProcessed, batchErrors, batchConsole, batchEvents]
  | cons p rest ih =>
    rcases h : pf p with ⟨r, evs⟩
    rcases r with e | ⟨o, e⟩
    case cons.mk.ok.mk =>
      rw [List.foldl_cons, processStep_ok pf N st p o e evs h, ih]
      simp only [batchProcessed, batchErrors, batchConsole, batchEvents,
        outcomeProcessed, outcomeErrors, outcomeConsole, List.map_cons,
        List.flatten_cons, List.isEmpty_cons, List.length_cons, h,
        BatchState.mk.injEq]
      refine ⟨by simp, by simp [List.append_assoc], by simp [List.append_assoc],
        by omega, ?_, by simp [List.append_assoc]⟩
      rcases rest with _ | ⟨q, qs⟩
      · simp
      · simp only [List.isEmpty_cons, Bool.false_eq_true, if_false, List.length_cons]
        have harg : st.files_processed + 1 + (qs.length + 1) =
            st.files_processed + (qs.length + 1 + 1) := by omega
        rw [harg]
    case cons.mk.error =>
      rw [List.foldl_cons, processStep_err pf N st p e evs h, ih]
      simp only [batchProcessed, batchErrors, batchConsole, batchEvents,
        outcomeProcessed, outcomeErrors, outcomeConsole, List.map_cons,
        List.flatten_cons, List.isEmpty_cons, List.length_cons, h,
        BatchState.mk.injEq]
      refine ⟨by simp, by simp [List.append_assoc], by simp [List.append_assoc],
        by omega, ?_, by simp [List.append_assoc]⟩
      rcases rest with _ | ⟨q, qs⟩
      · simp
      · simp only [List.isEmpty_cons, Bool.false_eq_true, if_false, List.length_cons]
        have harg : st.files_processed + 1 + (qs.length + 1) =
            st.files_processed + (qs.length + 1 + 1) := by omega
        rw [harg]

theorem run_captured_events (env : Env) (command : List String) :
    (run_captured env command).2 = [Event.toolRun command] := by
  unfold run_captured
  rcases env.run command with e | ⟨o, e⟩ <;> rfl

theorem pyEndsWith_append_TX (s : String) : pyEndsWith (s ++ ".TX") ".tx" = false := by
  have h1 : (".tx" : String).data = ['.', 't', 'x'] := rfl
  have h2 : (".TX" : String).data = ['.', 'T', 'X'] := rfl
  rw [pyEndsWith, String.data_append, h1, h2]
  simp only [List.isSuffixOf, List.reverse_append, List.reverse_cons, List.reverse_nil,
    List.nil_append, List.cons_append, List.append_nil]
  rfl

/-- C1: classification is a case-sensitive suffix match on ".tx": a texture
path yields inspection when the convert-to-raster box is off and
texture-to-raster conversion when it is on (in both cases independently of
the stats box); every other path — including a mixed-case ".TX" path —
yields conversion to texture carrying the stats flag. -/
theorem C1_classify_action (c1 c2 : Bool) (p : String) :
    (pyEndsWith p ".tx" = true → c2 = false → classify c1 c2 p = Action.inspectTexture) ∧
    (pyEndsWith p ".tx" = true → c2 = true → classify c1 c2 p = Action.convertTextureToRaster) ∧
    (pyEndsWith p ".tx" = false → classify c1 c2 p = Action.convertToTexture c1) ∧
    (∀ s : String, classify c1 c2 (s ++ ".TX") = Action.convertToTexture c1) := by
  refine ⟨?_, ?_, ?_, ?_⟩
  · intro h hc
    simp [classify, h, hc]
  · intro h hc
    simp [classify, h, hc]
  · intro h
    simp [classify, h]
  · intro s
    simp [classify, pyEndsWith_append_TX]

/-- Witness for C1 at concrete inputs. -/
theorem C1_classify_action_witness :
    classify true false "tile.tx" = Action.inspectTexture ∧
    classify true true "tile.tx" = Action.convertTextureToRaster ∧
    classify true false "photo.png" = Action.convertToTexture true ∧
    classify true false ("tile" ++ ".TX") = Action.convertToTexture true :=
  ⟨(C1_classify_action true false "tile.tx").1 (by decide) rfl,
   (C1_classify_action true true "tile.tx").2.1 (by decide) rfl,
   (C1_classify_action true false "photo.png").2.2.1 (by decide),
   (C1_classify_action true false "photo.png").2.2.2 "tile"⟩

/-- C4: the external command lines follow the fixed argument grammar:
`ConvertToTexture` is `[encoder, source, "-otex", destination]` with
`"--runstats"` as final argument exactly when `addStats` holds;
`ConvertTextureToRaster` is `[encoder, source, "-o", destination]`;
`InspectTexture` is `[inspector, "-v", source]` with no destination, and
each wrapper issues exactly its command. -/
theorem C4_command_grammar (env : Env) (src dst : String) :
    convert_to_tx_command env src dst true =
      [osJoin env.scriptDir "oiiotool.exe", src, "-otex", dst, "--runstats"] ∧
    convert_to_tx_command env src dst false =
      [osJoin env.scriptDir "oiiotool.exe", src, "-otex", dst] ∧
    convert_tx_to_tif_command env src dst =
      [osJoin env.scriptDir "oiiotool.exe", src, "-o", dst] ∧
    check_tx_file_command env src =
      [osJoin env.scriptDir "iinfo.exe", "-v", src] ∧
    (∀ b : Bool, (convert_to_tx env src dst b).2 =
      [Event.toolRun (convert_to_tx_command env src dst b)]) ∧
    (check_tx_file env src).2 = [Event.toolRun (check_tx_file_command env src)] ∧
    (convert_tx_to_tif env src dst).2 =
      [Event.toolRun (convert_tx_to_tif_command env src dst)] :=
  ⟨rfl, rfl, rfl, rfl,
   fun b => run_captured_events env (convert_to_tx_command env src dst b),
   run_captured_events env (check_tx_file_command env src),
   run_captured_events env (convert_tx_to_tif_command env src dst)⟩

/-- C5: the proceed check returns true without consulting the
overwrite-confirmation dialog when the destination does not exist; when it
does exist, the dialog is consulted exactly once on that path and its
boolean answer is returned. -/
theorem C5_should_proceed (env : Env) (d : String) :
    (env.pathExists d = false → should_proceed env d = (true, [])) ∧
    (env.pathExists d = true →
      (should_proceed env d).1 = env.confirmOverwrite d ∧
      confirmCalls (should_proceed env d).2 = [d]) := by
  constructor
  · intro h
    simp [should_proceed, h]
  · intro h
    simp [should_proceed, h, confirmCalls]

/-- Environment used by the C5 witness: exactly one path exists. -/
def envC5 : Env :=
  { scriptDir := ".", pathExists := fun p => p == "exists.tx",
    confirmOverwrite := fun _ => true, run := fun _ => Except.ok ("", "") }

/-- Witness for C5 at concrete inputs. -/
theorem C5_should_proceed_witness :
    should_proceed envC5 "fresh.tx" = (true, []) ∧
    ((should_proceed envC5 "exists.tx").1 = envC5.confirmOverwrite "exists.tx" ∧
      confirmCalls (should_proceed envC5 "exists.tx").2 = ["exists.tx"]) :=
  ⟨(C5_should_proceed envC5 "fresh.tx").1 (by decide),
   (C5_should_proceed envC5 "exists.tx").2 (by decide)⟩

/-- C7: destination resolution replaces the source's extension (as split off
by `splitext`, whose two parts reassemble to the source path) with ".tx" for
`ConvertToTexture` and ".tif" for `ConvertTextureToRaster`; inspection
resolves no destination; and resolution is deterministic, so computing it
twice yields the same string. -/
theorem C7_resolve_destination (p : String) :
    resolveDestination p Action.inspectTexture = none ∧
    resolveDestination p Action.convertTextureToRaster =
      some ((splitext p).1 ++ ".tif") ∧
    (∀ b : Bool, resolveDestination p (Action.convertToTexture b) =
      some ((splitext p).1 ++ ".tx")) ∧
    (splitext p).1 ++ (splitext p).2 = p ∧
    (∀ a : Action, resolveDestination p a = resolveDestination p a) :=
  ⟨rfl, rfl, fun _ => rfl, splitext_append p, fun _ => rfl⟩

theorem batchProcessed_perFileOk (env : Env) (c1 c2 : Bool) (files : List String) :
    batchProcessed (perFileOk env c1 c2) files = files := by
  induction files with
  | nil => rfl
  | cons p rest ih =>
    simp only [batchProcessed, List.map_cons, List.flatten_cons] at ih ⊢
    rw [ih]
    rfl

theorem batchErrors_missing (env : Env) (c1 c2 : Bool) :
    ∀ files : List String, (∀ p ∈ files, env.pathExists p = false) →
      batchErrors (perFileOk env c1 c2) files =
        files.map (fun p => "File not found: " ++ p) := by
  intro files
  induction files with
  | nil => intro _; rfl
  | cons p rest ih =>
    intro h
    have hp := h p (List.mem_cons_self p rest)
    have hr := fun q hq => h q (List.mem_cons_of_mem p hq)
    simp only [batchErrors, List.map_cons, List.flatten_cons] at ih ⊢
    rw [ih hr]
    simp [perFileOk, process_tx_file_missing env c1 c2 p hp, outcomeErrors,
      notFound_ne_empty p]

theorem batchEvents_missing (env : Env) (c1 c2 : Bool) :
    ∀ files : List String, (∀ p ∈ files, env.pathExists p = false) →
      batchEvents (perFileOk env c1 c2) files = [] := by
  intro files
  induction files with
  | nil => intro _; rfl
  | cons p rest ih =>
    intro h
    have hp := h p (List.mem_cons_self p rest)
    have hr := fun q hq => h q (List.mem_cons_of_mem p hq)
    simp only [batchEvents, List.map_cons, List.flatten_cons] at ih ⊢
    rw [ih hr]
    simp [perFileOk, process_tx_file_missing env c1 c2 p hp]

/-- Environment in which no file exists. -/
def envAllMissing : Env :=
  { scriptDir := ".", pathExists := fun _ => false,
    confirmOverwrite := fun _ => false, run := fun _ => Except.ok ("", "") }

/-- Counterexample to C2: with every source missing, the dropped path is not
excluded from the processed list — the loop appends it unconditionally after
a normal return, so `processedPaths` is not empty. -/
theorem C2_excluded_counterexample :
    ¬ (process_dropped_files (perFileOk envAllMissing true false)
        ["a.png"]).processed_files = [] := by
  decide

/-- C2 (amended): for a batch whose sources are all missing, no external tool
is invoked and exactly one error message literally equal to
`"File not found: <path>"` is recorded per file — but each dropped path is
still appended to the processed list, so `processedPaths` equals the dropped
list rather than being empty. -/
theorem C2_missing_files (env : Env) (c1 c2 : Bool) (files : List String)
    (h : ∀ p ∈ files, env.pathExists p = false) :
    (process_dropped_files (perFileOk env c1 c2) files).error_messages =
      files.map (fun p => "File not found: " ++ p) ∧
    (process_dropped_files (perFileOk env c1 c2) files).events = [] ∧
    (process_dropped_files (perFileOk env c1 c2) files).processed_files = files := by
  unfold process_dropped_files
  rw [foldl_processStep]
  refine ⟨?_, ?_, ?_⟩
  · simp [initState, batchErrors_missing env c1 c2 files h]
  · simp [initState, batchEvents_missing env c1 c2 files h]
  · simp [initState, batchProcessed_perFileOk]

/-- Witness for C2 (amended) on a two-file batch with every source missing. -/
theorem C2_missing_files_witness :
    (process_dropped_files (perFileOk envAllMissing true false)
        ["a.png", "b.png"]).error_messages =
      ["a.png", "b.png"].map (fun p => "File not found: " ++ p) ∧
    (process_dropped_files (perFileOk envAllMissing true false)
        ["a.png", "b.png"]).events = [] ∧
    (process_dropped_files (perFileOk envAllMissing true false)
        ["a.png", "b.png"]).processed_files = ["a.png", "b.png"] :=
  C2_missing_files envAllMissing true false ["a.png", "b.png"] (by decide)

/-- Environment of the C3 scenario: only `photo.png` exists. -/
def envPhoto : Env :=
  { scriptDir := "C:/tools", pathExists := fun p => p == "photo.png",
    confirmOverwrite := fun _ => false, run := fun _ => Except.ok ("", "") }

/-- Counterexample to C3: after the successful conversion the processed list
holds the source path `"photo.png"`, not the destination `"photo.tx"`. -/
theorem C3_processed_destination_counterexample :
    ¬ (process_dropped_files (perFileOk envPhoto true false)
        ["photo.png"]).processed_files = ["photo.tx"] := by
  decide

/-- C3 (amended): dropping `["photo.png"]` with stats on, texture-to-raster
off, and `photo.tx` absent produces exactly one encoder invocation with
arguments `photo.png -otex photo.tx --runstats`, and `processedPaths` equal
to `["photo.png"]` — the source path, not the destination. -/
theorem C3_convert_scenario (env : Env)
    (h1 : env.pathExists "photo.png" = true)
    (h2 : env.pathExists "photo.tx" = false) :
    (process_dropped_files (perFileOk env true false) ["photo.png"]).events =
      [Event.toolRun [osJoin env.scriptDir "oiiotool.exe", "photo.png",
        "-otex", "photo.tx", "--runstats"]] ∧
    (process_dropped_files (perFileOk env true false)
        ["photo.png"]).processed_files = ["photo.png"] := by
  have hend : pyEndsWith "photo.png" ".tx" = false := by decide
  have hdst : (splitext "photo.png").1 ++ ".tx" = "photo.tx" := by decide
  have hcmd : convert_to_tx_command env "photo.png" "photo.tx" true =
      [osJoin env.scriptDir "oiiotool.exe", "photo.png", "-otex", "photo.tx",
        "--runstats"] := rfl
  have hevs : (process_tx_file env true false "photo.png").2 =
      [Event.toolRun [osJoin env.scriptDir "oiiotool.exe", "photo.png",
        "-otex", "photo.tx", "--runstats"]] := by
    simp only [process_tx_file, h1, hend, Bool.not_true, Bool.false_and,
      Bool.and_false, if_false, Bool.not_false, if_neg, hdst,
      should_proceed, h2]
    simp [convert_to_tx, run_captured_events, hcmd]
  constructor
  · unfold process_dropped_files
    rw [foldl_processStep]
    simp [initState, batchEvents, perFileOk, hevs]
  · unfold process_dropped_files
    rw [foldl_processStep]
    simp [initState, batchProcessed_perFileOk]

/-- Witness for C3 (amended) in the concrete environment `envPhoto`. -/
theorem C3_convert_scenario_witness :
    (process_dropped_files (perFileOk envPhoto true false) ["photo.png"]).events =
      [Event.toolRun [osJoin envPhoto.scriptDir "oiiotool.exe", "photo.png",
        "-otex", "photo.tx", "--runstats"]] ∧
    (process_dropped_files (perFileOk envPhoto true false)
        ["photo.png"]).processed_files = ["photo.png"] :=
  C3_convert_scenario envPhoto (by decide) (by decide)

/-- C6: when the user declines to overwrite an existing destination the file
is skipped: no tool is invoked for it, the per-file outcome is the empty
`(stdout, stderr)` pair with only the confirmation-dialog event, and nothing
is added to the error list. -/
theorem C6_decline_skip (env : Env) (c1 : Bool)
    (h1 : env.pathExists "tile.tx" = true)
    (h2 : env.pathExists "tile.tif" = true)
    (h3 : env.confirmOverwrite "tile.tif" = false) :
    process_tx_file env c1 true "tile.tx" =
      (("", ""), [Event.confirmCall "tile.tif"]) ∧
    (process_dropped_files (perFileOk env c1 true)
        ["tile.tx"]).error_messages = [] ∧
    toolRunsOf (process_dropped_files (perFileOk env c1 true)
        ["tile.tx"]).events = [] := by
  have hend : pyEndsWith "tile.tx" ".tx" = true := by decide
  have hdst : (splitext "tile.tx").1 ++ ".tif" = "tile.tif" := by decide
  have hfile : process_tx_file env c1 true "tile.tx" =
      (("", ""), [Event.confirmCall "tile.tif"]) := by
    simp [process_tx_file, h1, hend, hdst, should_proceed, h2, h3]
  refine ⟨hfile, ?_, ?_⟩
  · unfold process_dropped_files
    rw [foldl_processStep]
    simp [initState, batchErrors, perFileOk, hfile, outcomeErrors]
  · unfold process_dropped_files
    rw [foldl_processStep]
    simp [initState, batchEvents, perFileOk, hfile, toolRunsOf]

/-- Environment of the C6 scenario: both `tile.tx` and `tile.tif` exist and
the user declines every overwrite. -/
def envTile : Env :=
  { scriptDir := ".", pathExists := fun p => p == "tile.tx" || p == "tile.tif",
    confirmOverwrite := fun _ => false, run := fun _ => Except.ok ("", "") }

/-- Witness for C6 in the concrete environment `envTile`. -/
theorem C6_decline_skip_witness :
    process_tx_file envTile true true "tile.tx" =
      (("", ""), [Event.confirmCall "tile.tif"]) ∧
    (process_dropped_files (perFileOk envTile true true)
        ["tile.tx"]).error_messages = [] ∧
    toolRunsOf (process_dropped_files (perFileOk envTile true true)
        ["tile.tx"]).events = [] :=
  C6_decline_skip envTile true (by decide) (by decide) (by decide)

/-- C8: a launch or execution failure inside a tool wrapper is caught and
converted to the outcome `("", <exception text>)`; at the batch level every
file is still accounted for (the loop runs to the end whatever the per-file
results are) and an exception text escaping a per-file step lands in the
error-message list instead of aborting the batch. -/
theorem C8_failures_contained (env : Env) (i o m : String) (s : Bool)
    (pf : PerFile) (files : List String) (p : String) :
    (env.run (convert_to_tx_command env i o s) = Except.error m →
      (convert_to_tx env i o s).1 = ("", m)) ∧
    (env.run (check_tx_file_command env i) = Except.error m →
      (check_tx_file env i).1 = ("", m)) ∧
    (env.run (convert_tx_to_tif_command env i o) = Except.error m →
      (convert_tx_to_tif env i o).1 = ("", m)) ∧
    (process_dropped_files pf files).files_processed = files.length ∧
    (p ∈ files → (pf p).1 = Except.error m →
      m ∈ (process_dropped_files pf files).error_messages) := by
  refine ⟨?_, ?_, ?_, ?_, ?_⟩
  · intro h
    simp [convert_to_tx, run_captured, h]
  · intro h
    simp [check_tx_file, run_captured, h]
  · intro h
    simp [convert_tx_to_tif, run_captured, h]
  · unfold process_dropped_files
    rw [foldl_processStep]
    simp [initState]
  · intro hp he
    unfold process_dropped_files
    rw [foldl_processStep]
    simp only [initState, List.nil_append, batchErrors]
    rw [List.mem_flatten]
    refine ⟨outcomeErrors (pf p).1, List.mem_map_of_mem _ hp, ?_⟩
    simp [outcomeErrors, he]

/-- Environment whose every subprocess launch fails with text "boom". -/
def envBoom : Env :=
  { scriptDir := ".", pathExists := fun _ => true,
    confirmOverwrite := fun _ => true, run := fun _ => Except.error "boom" }

/-- Per-file function whose every file raises an exception with text "boom". -/
def pfBoom : PerFile := fun _ => (Except.error "boom", [])

/-- Witness for C8 at concrete inputs. -/
theorem C8_failures_contained_witness :
    (convert_to_tx envBoom "a.png" "a.tx" true).1 = ("", "boom") ∧
    (process_dropped_files pfBoom ["a.png"]).files_processed = 1 ∧
    "boom" ∈ (process_dropped_files pfBoom ["a.png"]).error_messages :=
  ⟨(C8_failures_contained envBoom "a.png" "a.tx" "boom" true pfBoom
      ["a.png"] "a.png").1 rfl,
   (C8_failures_contained envBoom "a.png" "a.tx" "boom" true pfBoom
      ["a.png"] "a.png").2.2.2.1,
   (C8_failures_contained envBoom "a.png" "a.tx" "boom" true pfBoom
      ["a.png"] "a.png").2.2.2.2 (by decide) rfl⟩

/-- Per-file function that succeeds silently; used for progress claims. -/
def pfNoop : PerFile := fun _ => (Except.ok ("", ""), [])

/-- Counterexample to C9: after the first of three files the progress bar
reports the integer percentage `33`, whose fraction `33/100` differs from
`1/3` — the reported progress is the truncated percentage, not the exact
fraction `k/N`. -/
theorem C9_progress_fraction_counterexample :
    ¬ ((((["a", "b", "c"].take 1).foldl (processStep pfNoop 3)
          initState).progress : ℚ) / 100 = 1 / 3) := by
  have h : ((["a", "b", "c"].take 1).foldl (processStep pfNoop 3)
      initState).progress = 33 := by decide
  rw [h]
  norm_num

/-- C9 (amended): after the k-th of N files the progress bar value is the
truncated percentage `(k * 100) / N` (idealising float truncation as exact
floor); it never exceeds 100, equals 100 after the last file, and is reset
to 0 once the batch summary is finalized. -/
theorem C9_progress_percent (pf : PerFile) (files : List String) (k : Nat)
    (hk1 : 1 ≤ k) (hk2 : k ≤ files.length) :
    ((files.take k).foldl (processStep pf files.length) initState).progress =
      (k * 100) / files.length ∧
    ((files.take k).foldl (processStep pf files.length) initState).progress ≤ 100 ∧
    (k = files.length →
      ((files.take k).foldl (processStep pf files.length) initState).progress = 100) ∧
    (process_dropped_files pf files).progress = 0 := by
  have hN : 0 < files.length := lt_of_lt_of_le hk1 hk2
  have hlen : (files.take k).length = k := by
    rw [List.length_take]
    omega
  have hne : (files.take k).isEmpty = false := by
    rcases hemp : files.take k with _ | ⟨q, qs⟩
    · rw [hemp] at hlen
      simp at hlen
      omega
    · rfl
  have hval : ((files.take k).foldl (processStep pf files.length)
      initState).progress = (k * 100) / files.length := by
    rw [foldl_processStep]
    simp [initState, hlen, hne, progressValue]
  refine ⟨hval, ?_, ?_, ?_⟩
  · rw [hval]
    have h1 : k * 100 ≤ files.length * 100 := Nat.mul_le_mul_right 100 hk2
    have h2 : k * 100 / files.length ≤ files.length * 100 / files.length :=
      Nat.div_le_div_right h1
    have h3 : files.length * 100 / files.length = 100 :=
      Nat.mul_div_cancel_left 100 hN
    rw [h3] at h2
    exact h2
  · intro hkN
    rw [hval, hkN]
    exact Nat.mul_div_cancel_left 100 hN
  · unfold process_dropped_files
    rfl

/-- Witness for C9 (amended) on a concrete two-file batch. -/
theorem C9_progress_percent_witness :
    ((["a", "b"].take 1).foldl (processStep pfNoop 2) initState).progress =
      (1 * 100) / 2 ∧
    ((["a", "b"].take 1).foldl (processStep pfNoop 2) initState).progress ≤ 100 ∧
    (1 = 2 →
      ((["a", "b"].take 1).foldl (processStep pfNoop 2) initState).progress = 100) ∧
    (process_dropped_files pfNoop ["a", "b"]).progress = 0 := by
  have h := C9_progress_percent pfNoop ["a", "b"] 1 (by decide) (by decide)
  simpa using h

/-- C10: when no per-file exception escapes (which is how the source behaves,
since `process_tx_file` catches around its subprocess calls), the processed
list equals the dropped paths in drop order — missing, declined, and
erroring files included — and the console receives each file's stdout (when
non-empty) followed by exactly one completion line per dropped file. -/
theorem C10_processed_equals_dropped (env : Env) (c1 c2 : Bool)
    (files : List String) :
    (process_dropped_files (perFileOk env c1 c2) files).processed_files = files ∧
    (process_dropped_files (perFileOk env c1 c2) files).console_output =
      (files.map fun p =>
        (if (process_tx_file env c1 c2 p).1.1 = "" then []
         else [(process_tx_file env c1 c2 p).1.1]) ++
        ["File " ++ p ++ " has been processed."]).flatten := by
  constructor
  · unfold process_dropped_files
    rw [foldl_processStep]
    simp [initState, batchProcessed_perFileOk]
  · unfold process_dropped_files
    rw [foldl_processStep]
    simp only [initState, List.nil_append, batchConsole]
    refine congrArg List.flatten (List.map_congr_left ?_)
    intro p _
    rcases hval : (process_tx_file env c1 c2 p).1 with ⟨o, e⟩
    simp [outcomeConsole, perFileOk, hval]

end OiioGui
